import Mathlib

set_option maxRecDepth 100000

/-!
Verification of the PyDB storage engine (src/main.py, src/benchmark.py).

The definitions below are a shallow embedding of the Python source:
pure byte/struct manipulation becomes functions over lists of naturals,
the pager and B-tree mutate an explicit state record, and the page cache
of a freshly created database is modelled as a total function from page
numbers to page contents (an uncached page of a fresh database reads as
a zero-filled buffer, exactly what Pager.get_page produces).
-/

/-! ## Constants (src/main.py lines 5-45) -/

def PAGE_SIZE : Nat := 4096
def TABLE_MAX_PAGES : Nat := 100

def ID_SIZE : Nat := 4
def USERNAME_SIZE : Nat := 32
def EMAIL_SIZE : Nat := 255
def ROW_SIZE : Nat := ID_SIZE + USERNAME_SIZE + EMAIL_SIZE

def NODE_TYPE_SIZE : Nat := 1
def NODE_ROOT_SIZE : Nat := 1
def NODE_PARENT_SIZE : Nat := 4
def NODE_NUM_CELLS_SIZE : Nat := 4
def NODE_NEXT_LEAF_SIZE : Nat := 4
def COMMON_NODE_HEADER_SIZE : Nat :=
  NODE_TYPE_SIZE + NODE_ROOT_SIZE + NODE_PARENT_SIZE + NODE_NUM_CELLS_SIZE + NODE_NEXT_LEAF_SIZE

def LEAF_NODE_KEY_SIZE : Nat := 4
def LEAF_NODE_VALUE_SIZE : Nat := ROW_SIZE
def LEAF_NODE_CELL_SIZE : Nat := LEAF_NODE_KEY_SIZE + LEAF_NODE_VALUE_SIZE
def LEAF_NODE_SPACE_FOR_CELLS : Nat := PAGE_SIZE - COMMON_NODE_HEADER_SIZE
def LEAF_NODE_MAX_CELLS : Nat := LEAF_NODE_SPACE_FOR_CELLS / LEAF_NODE_CELL_SIZE

def INTERNAL_NODE_KEY_SIZE : Nat := 4
def INTERNAL_NODE_CHILD_SIZE : Nat := 4
def INTERNAL_NODE_CELL_SIZE : Nat := INTERNAL_NODE_KEY_SIZE + INTERNAL_NODE_CHILD_SIZE

def NODE_INTERNAL : Nat := 0
def NODE_LEAF : Nat := 1

def MAX_INT_KEY : Nat := 4294967295

/-! ## Structured page model

A page interpreted as a node.  The Python code accesses a page only
through the typed accessors of main.py lines 157-198, keeping the
on-page num_cells field equal to the length of the cell region that is
in active use, so a page is modelled as a record; the cell list of the
variant currently in use plays the role of the cell region together
with the num_cells field.  When the root page is re-tagged from leaf to
internal (split_root_node), the stale leaf bytes stay on the page and
are never read; the model likewise keeps the stale lcells list. -/

structure Page where
  ntype : Nat
  isRoot : Nat
  parent : Nat
  nextLeaf : Nat
  lcells : List (Nat × List Nat)
  icells : List (Nat × Nat)
deriving DecidableEq

def zeroPage : Page := ⟨0, 0, 0, 0, [], []⟩

structure DB where
  pages : Nat → Page
  numPages : Nat

def updatePage (db : DB) (i : Nat) (p : Page) : DB :=
  { db with pages := fun n => if n = i then p else db.pages n }

/-- Number of cells in active use; mirrors the on-page num_cells field,
which the source keeps in sync with the cell region of the node's
current type (get_node_num_cells / set_node_num_cells). -/
def numCells (p : Page) : Nat :=
  if p.ntype = NODE_LEAF then p.lcells.length else p.icells.length

/-- Embeds initialize_leaf_node (main.py line 189). -/
def initialize_leaf_node (p : Page) : Page :=
  { p with ntype := NODE_LEAF, isRoot := 0, lcells := [], nextLeaf := 0 }

/-- Embeds initialize_internal_node (main.py line 195); it does not
touch the next-leaf field nor the old leaf cell bytes. -/
def initialize_internal_node (p : Page) : Page :=
  { p with ntype := NODE_INTERNAL, isRoot := 0, icells := [] }

/-- Leaf cell at index i, as read by the source's struct.unpack_from;
beyond the in-use region a fresh page holds zero bytes, so the default
is the all-zero cell. -/
def cellAt (p : Page) (i : Nat) : Nat × List Nat := p.lcells.getD i (0, [])

/-- Embeds get_node_max_key (main.py line 181). -/
def get_node_max_key (p : Page) : Nat :=
  if numCells p = 0 then 0 else (cellAt p (numCells p - 1)).1

/-- Embeds Table.__init__ on a fresh database file (main.py lines
94-104): page 0 initialized as a leaf and marked root, one page. -/
def initTable : DB :=
  { pages := fun n => if n = 0 then { initialize_leaf_node zeroPage with isRoot := 1 } else zeroPage,
    numPages := 1 }

/-- Linear scan of an internal node's cells for the first cell whose
key is at least the searched key (the loop body of find_leaf_page,
main.py lines 308-316). -/
def findChild (key : Nat) : List (Nat × Nat) → Option Nat
  | [] => none
  | (k, c) :: rest => if key ≤ k then some c else findChild key rest

/-- Fuelled descent loop of find_leaf_page (main.py lines 297-325).
The source's while loop terminates on every tree the program builds
(depth at most two); the fuel only bounds the recursion depth and is
never exhausted on such trees.  When no cell matches, the source
prints an error and returns page 0. -/
def find_leaf_page_aux (db : DB) (key : Nat) : Nat → Nat → Nat
  | 0, page => page
  | fuel + 1, page =>
    if (db.pages page).ntype = NODE_INTERNAL then
      match findChild key (db.pages page).icells with
      | some c => find_leaf_page_aux db key fuel c
      | none => 0
    else page

/-- Embeds find_leaf_page (main.py lines 297-325). -/
def find_leaf_page (db : DB) (key : Nat) : Nat :=
  find_leaf_page_aux db key TABLE_MAX_PAGES 0

/-- Cells copied to the left half in split_root_node (main.py lines
228-236): cell indices 0..split_index-1 of the old root, read with
struct.unpack_from. -/
def splitLeftCells (root : Page) : List (Nat × List Nat) :=
  (List.range (LEAF_NODE_MAX_CELLS / 2)).map (fun i => cellAt root i)

/-- Cells copied to the right half in split_root_node (main.py lines
238-244): cell indices split_index..LEAF_NODE_MAX_CELLS-1 of the old
root. -/
def splitRightCells (root : Page) : List (Nat × List Nat) :=
  (List.range (LEAF_NODE_MAX_CELLS - LEAF_NODE_MAX_CELLS / 2)).map
    (fun i => cellAt root (LEAF_NODE_MAX_CELLS / 2 + i))

/-- The new left leaf built by split_root_node: a freshly initialized
leaf at page number num_pages, chained to the new right page and
holding the left half of the old root's cells. -/
def splitLeftNode (db : DB) : Page :=
  { initialize_leaf_node (db.pages db.numPages) with
      nextLeaf := db.numPages + 1, lcells := splitLeftCells (db.pages 0) }

/-- The new right leaf built by split_root_node: a freshly initialized
leaf at page number num_pages + 1 holding the right half of the old
root's cells with the new row appended at the end (the source computes
a target_node for the new row but never uses it and appends to the
right node unconditionally, main.py lines 250-260). -/
def splitRightNode (db : DB) (key : Nat) (val : List Nat) : Page :=
  { initialize_leaf_node (db.pages (db.numPages + 1)) with
      lcells := splitRightCells (db.pages 0) ++ [(key, val)] }

/-- The rewritten root built by split_root_node (main.py lines
262-275): page 0 re-tagged in place as an internal node with two
routing cells, the left child bounded by the left leaf's max key and
the right child carrying the sentinel key. -/
def splitNewRoot (db : DB) : Page :=
  { initialize_internal_node (db.pages 0) with
      isRoot := 1,
      icells := [(get_node_max_key (splitLeftNode db), db.numPages),
                 (MAX_INT_KEY, db.numPages + 1)] }

/-- Embeds split_root_node (main.py lines 211-277): writes the new left
leaf at page num_pages, the new right leaf at page num_pages + 1,
rewrites page 0 in place as an internal node, and accounts for the two
allocated pages. -/
def split_root_node (db : DB) (key : Nat) (val : List Nat) : DB :=
  { updatePage
      (updatePage
        (updatePage db db.numPages (splitLeftNode db))
        (db.numPages + 1) (splitRightNode db key val))
      0 (splitNewRoot db)
    with numPages := db.numPages + 2 }

/-- Embeds leaf_node_insert (main.py lines 279-295).  On a full leaf:
split if the node is the root, otherwise print an error message and
return with no state change (the Python function returns None in every
case; it has no error channel). -/
def leaf_node_insert (db : DB) (page : Nat) (key : Nat) (val : List Nat) : DB :=
  let node := db.pages page
  if LEAF_NODE_MAX_CELLS ≤ numCells node then
    if node.isRoot ≠ 0 then split_root_node db key val
    else db
  else
    updatePage db page { node with lcells := node.lcells ++ [(key, val)] }

/-- Embeds the storage-engine part of execute_insert (main.py lines
340-347): find the leaf for the key, then insert there. -/
def execute_insert (db : DB) (key : Nat) (val : List Nat) : DB :=
  leaf_node_insert db (find_leaf_page db key) key val

/-- Folds execute_insert over a list of (key, value bytes) rows. -/
def insertAll (db : DB) (rows : List (Nat × List Nat)) : DB :=
  rows.foldl (fun d r => execute_insert d r.1 r.2) db

/-- Keys of a page's leaf cells in storage order. -/
def keysOf (p : Page) : List Nat := p.lcells.map Prod.fst

/-- Ascending rows 0..n-1 with empty value bytes (the engine never
inspects value bytes, so concrete runs use empty ones). -/
def ascRows (n : Nat) : List (Nat × List Nat) := (List.range n).map (fun i => (i, []))

/-! ## Reachable-state shapes

A freshly created database passes through exactly two shapes: a single
root leaf (page 0), and, after the one implemented split, an internal
root over the two leaves at pages 1 and 2.  A further split never
happens (splitting a non-root leaf is unimplemented), so these two
shapes are closed under execute_insert for any key below 2^32 (every
key the program can actually store: struct.pack of a larger key raises
in serialize_row before leaf_node_insert runs). -/

def ShapeA (db : DB) : Prop :=
  db.numPages = 1 ∧
  (db.pages 0).ntype = NODE_LEAF ∧
  (db.pages 0).isRoot = 1 ∧
  (db.pages 0).lcells.length ≤ LEAF_NODE_MAX_CELLS ∧
  ∀ n, n ≠ 0 → db.pages n = zeroPage

def ShapeB (db : DB) (s : Nat) : Prop :=
  db.numPages = 3 ∧
  (db.pages 0).ntype = NODE_INTERNAL ∧
  (db.pages 0).isRoot = 1 ∧
  (db.pages 0).icells = [(s, 1), (MAX_INT_KEY, 2)] ∧
  (db.pages 1).ntype = NODE_LEAF ∧
  (db.pages 1).isRoot = 0 ∧
  (db.pages 1).lcells.length ≤ LEAF_NODE_MAX_CELLS ∧
  (db.pages 2).ntype = NODE_LEAF ∧
  (db.pages 2).isRoot = 0 ∧
  (db.pages 2).lcells.length ≤ LEAF_NODE_MAX_CELLS ∧
  ∀ n, n ≠ 0 → n ≠ 1 → n ≠ 2 → db.pages n = zeroPage

def Inv2 (db : DB) : Prop := ShapeA db ∨ ∃ s, ShapeB db s

/-! ## Sorted-state invariant

Strengthening of the shape invariant used for the sorted-leaf
property: it tracks a strict upper bound ub on every key stored so
far, so that a further insert with a key at least ub is appended at
the correct (last) position. -/

def SortedA (db : DB) (ub : Nat) : Prop :=
  ShapeA db ∧
  List.Chain' (· < ·) (keysOf (db.pages 0)) ∧
  ∀ x ∈ keysOf (db.pages 0), x < ub

def SortedB (db : DB) (s ub : Nat) : Prop :=
  ShapeB db s ∧ s < ub ∧
  List.Chain' (· < ·) (keysOf (db.pages 0)) ∧
  List.Chain' (· < ·) (keysOf (db.pages 1)) ∧
  List.Chain' (· < ·) (keysOf (db.pages 2)) ∧
  ∀ x ∈ keysOf (db.pages 2), x < ub

def SortedInv (db : DB) (ub : Nat) : Prop := SortedA db ub ∨ ∃ s, SortedB db s ub

/-- Key sequence strictly ascending from lo, with every key storable
as a 32-bit unsigned integer. -/
def ascendingFrom (lo : Nat) : List (Nat × List Nat) → Bool
  | [] => true
  | r :: rest => decide (lo ≤ r.1) && decide (r.1 < 4294967296) && ascendingFrom (r.1 + 1) rest

/-! ## Pager model (src/main.py lines 49-92)

A page buffer is a list of bytes.  The pager state holds the backing
file's bytes, the file length captured at open time, and the page
cache (None entries of self.pages become none). -/

structure PagerS where
  fileData : List Nat
  fileLength : Nat
  cache : Nat → Option (List Nat)

/-- Empty database file freshly opened: no bytes, no cached pages. -/
def emptyPager : PagerS := ⟨[], 0, fun _ => none⟩

/-- Number of pages the file holds, rounding a partial page up
(main.py lines 66-68). -/
def numPagesInFile (p : PagerS) : Nat :=
  p.fileLength / PAGE_SIZE + (if p.fileLength % PAGE_SIZE = 0 then 0 else 1)

/-- Caching a freshly materialized buffer for page n. -/
def cacheAdd (p : PagerS) (n : Nat) (buf : List Nat) : PagerS :=
  { p with cache := fun m => if m = n then some buf else p.cache m }

/-- Embeds Pager.get_page (main.py lines 61-77): out-of-bounds page
numbers raise; a cached page is returned as is; otherwise the buffer
is read from the file when the page lies within the file extent and
is a fresh zero-filled buffer otherwise, and is cached either way. -/
def get_page (p : PagerS) (n : Nat) : Except String (List Nat × PagerS) :=
  if TABLE_MAX_PAGES ≤ n then
    Except.error "Page number out of bounds."
  else if hc : (p.cache n).isSome then
    Except.ok ((p.cache n).get hc, p)
  else if n < numPagesInFile p then
    Except.ok ((p.fileData.drop (n * PAGE_SIZE)).take PAGE_SIZE,
      cacheAdd p n ((p.fileData.drop (n * PAGE_SIZE)).take PAGE_SIZE))
  else
    Except.ok (List.replicate PAGE_SIZE 0, cacheAdd p n (List.replicate PAGE_SIZE 0))

/-! ## Byte-level node header codec (src/main.py lines 155-198)

The source reads and writes header fields with struct.unpack_from and
struct.pack_into on a page buffer; 'B' is one byte and 'I' four bytes
in little-endian order on the machines the program targets. -/

def readU8 (buf : List Nat) (off : Nat) : Nat := buf.getD off 0

def writeU8 (buf : List Nat) (off v : Nat) : List Nat := buf.set off v

def readU32 (buf : List Nat) (off : Nat) : Nat :=
  readU8 buf off + 256 * readU8 buf (off + 1) + 65536 * readU8 buf (off + 2) +
    16777216 * readU8 buf (off + 3)

def writeU32 (buf : List Nat) (off v : Nat) : List Nat :=
  (((buf.set off (v % 256)).set (off + 1) (v / 256 % 256)).set
    (off + 2) (v / 65536 % 256)).set (off + 3) (v / 16777216 % 256)

/-- Byte offset of the num_cells header field, as computed in
get_node_num_cells (main.py line 168). -/
def NODE_NUM_CELLS_OFFSET : Nat := NODE_TYPE_SIZE + NODE_ROOT_SIZE + NODE_PARENT_SIZE

/-- Byte offset of the next-leaf header field, as computed in
get_node_next_leaf (main.py line 174). -/
def NODE_NEXT_LEAF_OFFSET : Nat :=
  NODE_TYPE_SIZE + NODE_ROOT_SIZE + NODE_PARENT_SIZE + NODE_NUM_CELLS_SIZE

def get_node_type_b (buf : List Nat) : Nat := readU8 buf 0

def set_node_type_b (buf : List Nat) (t : Nat) : List Nat := writeU8 buf 0 t

def set_node_root_b (buf : List Nat) (isRoot : Bool) : List Nat :=
  writeU8 buf NODE_TYPE_SIZE (if isRoot then 1 else 0)

def get_node_num_cells_b (buf : List Nat) : Nat := readU32 buf NODE_NUM_CELLS_OFFSET

def set_node_num_cells_b (buf : List Nat) (v : Nat) : List Nat :=
  writeU32 buf NODE_NUM_CELLS_OFFSET v

def get_node_next_leaf_b (buf : List Nat) : Nat := readU32 buf NODE_NEXT_LEAF_OFFSET

def set_node_next_leaf_b (buf : List Nat) (v : Nat) : List Nat :=
  writeU32 buf NODE_NEXT_LEAF_OFFSET v

/-! ## Row serialization (src/main.py lines 202-209)

struct.pack with format I32s255s: a 4-byte unsigned integer followed
by two fixed-width byte fields, each padded with NUL bytes (and
truncated) to its width.  Strings are modelled by their UTF-8 byte
lists (encode and decode are mutually inverse on the values the
program handles, so the codec works on bytes). -/

def packU32 (v : Nat) : List Nat :=
  [v % 256, v / 256 % 256, v / 65536 % 256, v / 16777216 % 256]

def unpackU32 (bs : List Nat) : Nat :=
  bs.getD 0 0 + 256 * bs.getD 1 0 + 65536 * bs.getD 2 0 + 16777216 * bs.getD 3 0

/-- Fixed-width field as struct.pack renders an Ns field: NUL-padded
to len, truncated beyond len. -/
def packField (len : Nat) (bs : List Nat) : List Nat :=
  (bs ++ List.replicate len 0).take len

/-- Strip trailing NUL bytes, as str.rstrip applied to the NUL
character does after decoding. -/
def rstripNul (bs : List Nat) : List Nat :=
  (bs.reverse.dropWhile (fun b => b == 0)).reverse

/-- Embeds serialize_row (main.py line 202). -/
def serialize_row (rowId : Nat) (username email : List Nat) : List Nat :=
  packU32 rowId ++ packField USERNAME_SIZE username ++ packField EMAIL_SIZE email

/-- Embeds deserialize_row (main.py line 205). -/
def deserialize_row (data : List Nat) : Nat × List Nat × List Nat :=
  (unpackU32 (data.take ID_SIZE),
   rstripNul ((data.drop ID_SIZE).take USERNAME_SIZE),
   rstripNul ((data.drop (ID_SIZE + USERNAME_SIZE)).take EMAIL_SIZE))

/-! ## Write-ahead log model

Modelled from the spec: the WAL and generic BTree classes that
src/benchmark.py imports from main are absent from src/main.py, so
the log (section 4.3 and section 6 of the spec: an append-only list
of records, a Start record carrying the row payload and a Commit
record carrying only the transaction id) and the two trees (insert
appends a key-value pair; the claim concerns only how many times a
row is present) are modelled from the spec's words. -/

inductive WalRecord where
  | start (txn : Nat) (rowId : Nat) (username email : List Nat)
  | commit (txn : Nat)
deriving DecidableEq

def isCommitFor (t : Nat) : WalRecord → Bool
  | WalRecord.commit t2 => t2 == t
  | _ => false

/-- Modelled from the spec: scanning the log from the beginning and
keeping every transaction that has a Start record with no later
Commit record, together with the payload captured at Start. -/
def uncommittedTxns : List WalRecord → List (Nat × Nat × List Nat × List Nat)
  | [] => []
  | WalRecord.start t rowId u e :: rest =>
    if rest.any (isCommitFor t) then uncommittedTxns rest
    else (t, rowId, u, e) :: uncommittedTxns rest
  | WalRecord.commit _ :: rest => uncommittedTxns rest

/-- Modelled from the spec: recover replays each uncommitted insert
into the primary tree (keyed by row id, storing the serialized row, as
run_benchmark does in src/benchmark.py lines 43-54) and the secondary
index (keyed by the email hash, storing the packed row id), then
appends a Commit record for it.  The trees are key-value lists; the
email-hashing function is an opaque parameter. -/
def recover (hash : List Nat → Nat) (log : List WalRecord)
    (ptree stree : List (Nat × List Nat)) :
    List WalRecord × List (Nat × List Nat) × List (Nat × List Nat) :=
  (log ++ (uncommittedTxns log).map (fun r => WalRecord.commit r.1),
   ptree ++ (uncommittedTxns log).map (fun r => (r.2.1, serialize_row r.2.1 r.2.2.1 r.2.2.2)),
   stree ++ (uncommittedTxns log).map (fun r => (hash r.2.2.2, packU32 r.2.1)))

/-! ## Helper lemmas about the descent loop -/

theorem find_leaf_page_aux_succ (db : DB) (key fuel page : Nat) :
    find_leaf_page_aux db key (fuel + 1) page =
      (if (db.pages page).ntype = NODE_INTERNAL then
        match findChild key (db.pages page).icells with
        | some c => find_leaf_page_aux db key fuel c
        | none => 0
      else page) := rfl

theorem flp_aux_leaf (db : DB) (key fuel page : Nat)
    (h : (db.pages page).ntype = NODE_LEAF) (hf : fuel ≠ 0) :
    find_leaf_page_aux db key fuel page = page := by
  cases fuel with
  | zero => exact absurd rfl hf
  | succ n =>
    rw [find_leaf_page_aux_succ, h]
    norm_num [NODE_LEAF, NODE_INTERNAL]

theorem flp_leaf_root (db : DB) (key : Nat) (h : (db.pages 0).ntype = NODE_LEAF) :
    find_leaf_page db key = 0 :=
  flp_aux_leaf db key TABLE_MAX_PAGES 0 h (by decide)

theorem findChild_two (key s c1 c2 : Nat) :
    findChild key [(s, c1), (MAX_INT_KEY, c2)] =
      (if key ≤ s then some c1 else if key ≤ MAX_INT_KEY then some c2 else none) := by
  simp [findChild]

theorem flp_route_two (db : DB) (s c1 c2 key : Nat)
    (hroot : (db.pages 0).ntype = NODE_INTERNAL)
    (hic : (db.pages 0).icells = [(s, c1), (MAX_INT_KEY, c2)])
    (hc1 : (db.pages c1).ntype = NODE_LEAF)
    (hc2 : (db.pages c2).ntype = NODE_LEAF) :
    find_leaf_page db key = if key ≤ s then c1 else if key ≤ MAX_INT_KEY then c2 else 0 := by
  show find_leaf_page_aux db key (99 + 1) 0 = _
  rw [find_leaf_page_aux_succ, hroot, hic, findChild_two, if_pos rfl]
  by_cases h1 : key ≤ s
  · rw [if_pos h1, if_pos h1]
    exact flp_aux_leaf db key 99 c1 hc1 (by decide)
  · rw [if_neg h1, if_neg h1]
    by_cases h2 : key ≤ MAX_INT_KEY
    · rw [if_pos h2, if_pos h2]
      exact flp_aux_leaf db key 99 c2 hc2 (by decide)
    · rw [if_neg h2, if_neg h2]

/-! ## Helper lemmas about leaf_node_insert -/

theorem leaf_node_insert_full_notRoot (db : DB) (page key : Nat) (val : List Nat)
    (hfull : LEAF_NODE_MAX_CELLS ≤ numCells (db.pages page))
    (hnotroot : (db.pages page).isRoot = 0) :
    leaf_node_insert db page key val = db := by
  unfold leaf_node_insert
  simp [hfull, hnotroot]

/-! ## List helper lemmas -/

theorem chain'_append_lt (l : List Nat) (k : Nat)
    (hs : List.Chain' (· < ·) l) (hb : ∀ x ∈ l, x < k) :
    List.Chain' (· < ·) (l ++ [k]) := by
  rw [List.chain'_append]
  refine ⟨hs, List.chain'_singleton k, ?_⟩
  intro x hx y hy
  obtain ⟨hne, hxe⟩ := List.mem_getLast?_eq_getLast hx
  have hy' : k = y := by simpa using hy
  subst hy'
  refine hb x ?_
  rw [hxe]
  exact List.getLast_mem hne

theorem rangeMap_getD_eq_take {α : Type} (l : List α) (d : α) (n : Nat) (h : n ≤ l.length) :
    (List.range n).map (fun i => l.getD i d) = l.take n := by
  apply List.ext_getElem
  · simp [Nat.min_eq_left h]
  · intro i h1 h2
    have hi : i < l.length := by
      simp only [List.length_map, List.length_range] at h1
      omega
    simp only [List.getElem_map, List.getElem_range, List.getElem_take]
    exact List.getD_eq_getElem l d hi

theorem rangeMap_getD_shift_eq_drop {α : Type} (l : List α) (d : α) (j m : Nat)
    (h : j + m = l.length) :
    (List.range m).map (fun i => l.getD (j + i) d) = l.drop j := by
  apply List.ext_getElem
  · simp only [List.length_map, List.length_range, List.length_drop]
    omega
  · intro i h1 h2
    have hi : j + i < l.length := by
      simp only [List.length_map, List.length_range] at h1
      omega
    simp only [List.getElem_map, List.getElem_range, List.getElem_drop]
    rw [List.getD_eq_getElem l d hi]

/-! ## State-lookup helper lemmas -/

theorem updatePage_pages (db : DB) (i : Nat) (p : Page) (n : Nat) :
    (updatePage db i p).pages n = if n = i then p else db.pages n := rfl

theorem updatePage_numPages (db : DB) (i : Nat) (p : Page) :
    (updatePage db i p).numPages = db.numPages := rfl

theorem split_root_numPages (db : DB) (key : Nat) (val : List Nat) :
    (split_root_node db key val).numPages = db.numPages + 2 := rfl

theorem split_root_pages (db : DB) (key : Nat) (val : List Nat) (n : Nat) :
    (split_root_node db key val).pages n =
      if n = 0 then splitNewRoot db
      else if n = db.numPages + 1 then splitRightNode db key val
      else if n = db.numPages then splitLeftNode db
      else db.pages n := rfl

theorem leaf_node_insert_append (db : DB) (page key : Nat) (val : List Nat)
    (hnotfull : numCells (db.pages page) < LEAF_NODE_MAX_CELLS) :
    leaf_node_insert db page key val =
      updatePage db page
        { db.pages page with lcells := (db.pages page).lcells ++ [(key, val)] } := by
  unfold leaf_node_insert
  rw [if_neg (by omega)]

theorem leaf_node_insert_full_root (db : DB) (page key : Nat) (val : List Nat)
    (hfull : LEAF_NODE_MAX_CELLS ≤ numCells (db.pages page))
    (hroot : (db.pages page).isRoot ≠ 0) :
    leaf_node_insert db page key val = split_root_node db key val := by
  unfold leaf_node_insert
  rw [if_pos hfull, if_pos hroot]

theorem shapeA_init : ShapeA initTable := by
  refine ⟨rfl, rfl, rfl, by decide, fun n hn => ?_⟩
  simp [initTable, hn]

theorem inv2_init : Inv2 initTable :=
  Or.inl shapeA_init

theorem flp_shapeB (db : DB) (s k : Nat) (hB : ShapeB db s) (hk : k < 4294967296) :
    find_leaf_page db k = if k ≤ s then 1 else 2 := by
  obtain ⟨_, hty0, _, hic, hty1, _, _, hty2, _, _, _⟩ := hB
  rw [flp_route_two db s 1 2 k hty0 hic hty1 hty2]
  by_cases h1 : k ≤ s
  · rw [if_pos h1, if_pos h1]
  · rw [if_neg h1, if_neg h1, if_pos (show k ≤ MAX_INT_KEY by unfold MAX_INT_KEY; omega)]

theorem numCells_leaf (p : Page) (h : p.ntype = NODE_LEAF) : numCells p = p.lcells.length := by
  unfold numCells
  rw [h, if_pos rfl]

/-- In shape A every insert goes to the root leaf: it is appended when
the leaf has room and otherwise triggers the root split. -/
theorem shapeA_step_cases (db : DB) (k : Nat) (v : List Nat) (hA : ShapeA db) :
    ((db.pages 0).lcells.length < LEAF_NODE_MAX_CELLS ∧
      execute_insert db k v =
        updatePage db 0 { db.pages 0 with lcells := (db.pages 0).lcells ++ [(k, v)] }) ∨
    ((db.pages 0).lcells.length = LEAF_NODE_MAX_CELLS ∧
      execute_insert db k v = split_root_node db k v) := by
  obtain ⟨hnp, hty, hrt, hlen, hz⟩ := hA
  have hflp : find_leaf_page db k = 0 := flp_leaf_root db k hty
  have hnc : numCells (db.pages 0) = (db.pages 0).lcells.length := numCells_leaf _ hty
  by_cases hfull : LEAF_NODE_MAX_CELLS ≤ (db.pages 0).lcells.length
  · right
    refine ⟨by omega, ?_⟩
    unfold execute_insert
    rw [hflp]
    exact leaf_node_insert_full_root db 0 k v (by omega) (by rw [hrt]; omega)
  · left
    refine ⟨by omega, ?_⟩
    unfold execute_insert
    rw [hflp]
    exact leaf_node_insert_append db 0 k v (by omega)

theorem shapeA_append_preserves (db : DB) (k : Nat) (v : List Nat) (hA : ShapeA db)
    (hnotfull : (db.pages 0).lcells.length < LEAF_NODE_MAX_CELLS) :
    ShapeA (updatePage db 0 { db.pages 0 with lcells := (db.pages 0).lcells ++ [(k, v)] }) := by
  obtain ⟨hnp, hty, hrt, hlen, hz⟩ := hA
  refine ⟨hnp, ?_, ?_, ?_, ?_⟩
  · rw [updatePage_pages, if_pos rfl]
    exact hty
  · rw [updatePage_pages, if_pos rfl]
    exact hrt
  · rw [updatePage_pages, if_pos rfl]
    simp only [List.length_append, List.length_cons, List.length_nil]
    omega
  · intro n hn
    rw [updatePage_pages, if_neg hn]
    exact hz n hn

theorem split_pages_zero (db : DB) (key : Nat) (val : List Nat) :
    (split_root_node db key val).pages 0 = splitNewRoot db := by
  rw [split_root_pages, if_pos rfl]

theorem split_pages_one (db : DB) (key : Nat) (val : List Nat) (hnp : db.numPages = 1) :
    (split_root_node db key val).pages 1 = splitLeftNode db := by
  rw [split_root_pages, hnp]
  norm_num

theorem split_pages_two (db : DB) (key : Nat) (val : List Nat) (hnp : db.numPages = 1) :
    (split_root_node db key val).pages 2 = splitRightNode db key val := by
  rw [split_root_pages, hnp]
  norm_num

theorem split_pages_other (db : DB) (key : Nat) (val : List Nat) (hnp : db.numPages = 1)
    (n : Nat) (h0 : n ≠ 0) (h1 : n ≠ 1) (h2 : n ≠ 2) :
    (split_root_node db key val).pages n = db.pages n := by
  rw [split_root_pages, hnp, if_neg h0, if_neg (by omega), if_neg h1]

theorem shapeA_split_preserves (db : DB) (k : Nat) (v : List Nat) (hA : ShapeA db) :
    ShapeB (split_root_node db k v) (get_node_max_key (splitLeftNode db)) := by
  obtain ⟨hnp, hty, hrt, hlen, hz⟩ := hA
  refine ⟨?_, ?_, ?_, ?_, ?_, ?_, ?_, ?_, ?_, ?_, ?_⟩
  · rw [split_root_numPages, hnp]
  · rw [split_pages_zero]
    rfl
  · rw [split_pages_zero]
    rfl
  · rw [split_pages_zero]
    show [(get_node_max_key (splitLeftNode db), db.numPages), (MAX_INT_KEY, db.numPages + 1)] = _
    rw [hnp]
  · rw [split_pages_one db k v hnp]
    rfl
  · rw [split_pages_one db k v hnp]
    rfl
  · rw [split_pages_one db k v hnp]
    show (splitLeftCells (db.pages 0)).length ≤ LEAF_NODE_MAX_CELLS
    simp only [splitLeftCells, List.length_map, List.length_range]
    decide
  · rw [split_pages_two db k v hnp]
    rfl
  · rw [split_pages_two db k v hnp]
    rfl
  · rw [split_pages_two db k v hnp]
    show (splitRightCells (db.pages 0) ++ [(k, v)]).length ≤ LEAF_NODE_MAX_CELLS
    simp only [splitRightCells, List.length_append, List.length_map, List.length_range,
      List.length_cons, List.length_nil]
    decide
  · intro n h0 h1 h2
    rw [split_pages_other db k v hnp n h0 h1 h2]
    exact hz n h0

/-- In shape B every insert with a key below 2^32 targets leaf 1 or
leaf 2; the row is appended when the leaf has room and silently
dropped otherwise.  Either way shape B is preserved with the same
routing key. -/
theorem shapeB_step_cases (db : DB) (s k : Nat) (v : List Nat) (hB : ShapeB db s)
    (hk : k < 4294967296) :
    ShapeB (execute_insert db k v) s ∧
    (execute_insert db k v = db ∨
      ∃ t, (t = 1 ∨ t = 2) ∧ find_leaf_page db k = t ∧
        (db.pages t).lcells.length < LEAF_NODE_MAX_CELLS ∧
        execute_insert db k v =
          updatePage db t { db.pages t with lcells := (db.pages t).lcells ++ [(k, v)] }) := by
  have hflp := flp_shapeB db s k hB hk
  obtain ⟨hnp, h0t, h0r, h0i, h1t, h1r, h1l, h2t, h2r, h2l, hz⟩ := hB
  have ht : find_leaf_page db k = 1 ∨ find_leaf_page db k = 2 := by
    rw [hflp]
    by_cases h1 : k ≤ s
    · left
      rw [if_pos h1]
    · right
      rw [if_neg h1]
  have htyt : (db.pages (find_leaf_page db k)).ntype = NODE_LEAF := by
    rcases ht with ht | ht <;> rw [ht] <;> assumption
  have hrtt : (db.pages (find_leaf_page db k)).isRoot = 0 := by
    rcases ht with ht | ht <;> rw [ht] <;> assumption
  have hlent : (db.pages (find_leaf_page db k)).lcells.length ≤ LEAF_NODE_MAX_CELLS := by
    rcases ht with ht | ht <;> rw [ht] <;> assumption
  have hnc := numCells_leaf _ htyt
  by_cases hfull : LEAF_NODE_MAX_CELLS ≤ (db.pages (find_leaf_page db k)).lcells.length
  · have heq : execute_insert db k v = db :=
      leaf_node_insert_full_notRoot db (find_leaf_page db k) k v (by omega) hrtt
    rw [heq]
    exact ⟨⟨hnp, h0t, h0r, h0i, h1t, h1r, h1l, h2t, h2r, h2l, hz⟩, Or.inl rfl⟩
  · have heq : execute_insert db k v =
        updatePage db (find_leaf_page db k)
          { db.pages (find_leaf_page db k) with
              lcells := (db.pages (find_leaf_page db k)).lcells ++ [(k, v)] } :=
      leaf_node_insert_append db (find_leaf_page db k) k v (by omega)
    rw [heq]
    have hne0 : (0 : Nat) ≠ find_leaf_page db k := by omega
    refine ⟨⟨?_, ?_, ?_, ?_, ?_, ?_, ?_, ?_, ?_, ?_, ?_⟩,
      Or.inr ⟨find_leaf_page db k, by omega, rfl, by omega, rfl⟩⟩
    · rw [updatePage_numPages]
      exact hnp
    · rw [updatePage_pages, if_neg hne0]
      exact h0t
    · rw [updatePage_pages, if_neg hne0]
      exact h0r
    · rw [updatePage_pages, if_neg hne0]
      exact h0i
    · rw [updatePage_pages]
      by_cases h : (1 : Nat) = find_leaf_page db k
      · rw [if_pos h]
        exact htyt
      · rw [if_neg h]
        exact h1t
    · rw [updatePage_pages]
      by_cases h : (1 : Nat) = find_leaf_page db k
      · rw [if_pos h]
        exact hrtt
      · rw [if_neg h]
        exact h1r
    · rw [updatePage_pages]
      by_cases h : (1 : Nat) = find_leaf_page db k
      · rw [if_pos h]
        simp only [List.length_append, List.length_cons, List.length_nil]
        omega
      · rw [if_neg h]
        exact h1l
    · rw [updatePage_pages]
      by_cases h : (2 : Nat) = find_leaf_page db k
      · rw [if_pos h]
        exact htyt
      · rw [if_neg h]
        exact h2t
    · rw [updatePage_pages]
      by_cases h : (2 : Nat) = find_leaf_page db k
      · rw [if_pos h]
        exact hrtt
      · rw [if_neg h]
        exact h2r
    · rw [updatePage_pages]
      by_cases h : (2 : Nat) = find_leaf_page db k
      · rw [if_pos h]
        simp only [List.length_append, List.length_cons, List.length_nil]
        omega
      · rw [if_neg h]
        exact h2l
    · intro n hn0 hn1 hn2
      rw [updatePage_pages, if_neg (by omega)]
      exact hz n hn0 hn1 hn2

theorem inv2_step (db : DB) (k : Nat) (v : List Nat) (hk : k < 4294967296) (h : Inv2 db) :
    Inv2 (execute_insert db k v) := by
  rcases h with hA | ⟨s, hB⟩
  · rcases shapeA_step_cases db k v hA with ⟨hlt, heq⟩ | ⟨hfull, heq⟩
    · rw [heq]
      exact Or.inl (shapeA_append_preserves db k v hA hlt)
    · rw [heq]
      exact Or.inr ⟨_, shapeA_split_preserves db k v hA⟩
  · exact Or.inr ⟨s, (shapeB_step_cases db s k v hB hk).1⟩

theorem inv2_insertAll (rows : List (Nat × List Nat)) :
    ∀ db : DB, Inv2 db → (∀ r ∈ rows, r.1 < 4294967296) → Inv2 (insertAll db rows) := by
  induction rows with
  | nil =>
    intro db h _
    exact h
  | cons r rest ih =>
    intro db h hk
    exact ih (execute_insert db r.1 r.2)
      (inv2_step db r.1 r.2 (hk r (List.mem_cons_self r rest)) h)
      (fun x hx => hk x (List.mem_cons_of_mem r hx))

/-! ## Claim C6 -/

/-- C6: after any sequence of inserts (any key order, all keys being
32-bit values as the data model fixes) starting from a fresh database,
page 0 carries the is-root flag and every other page does not: the
root is always page 0, exactly one node has the is-root flag set, and
a root split rewrites page 0 in place as an Internal node rather than
relocating the root. -/
theorem C6_root_stability (rows : List (Nat × List Nat))
    (hk : ∀ r ∈ rows, r.1 < 4294967296) :
    ((insertAll initTable rows).pages 0).isRoot = 1 ∧
    ∀ n, n ≠ 0 → ((insertAll initTable rows).pages n).isRoot = 0 := by
  rcases inv2_insertAll rows initTable inv2_init hk with hA | ⟨s, hB⟩
  · obtain ⟨_, _, hrt, _, hz⟩ := hA
    refine ⟨hrt, fun n hn => ?_⟩
    rw [hz n hn]
    rfl
  · obtain ⟨_, _, h0r, _, _, h1r, _, _, h2r, _, hz⟩ := hB
    refine ⟨h0r, fun n hn => ?_⟩
    by_cases h1 : n = 1
    · rw [h1]
      exact h1r
    · by_cases h2 : n = 2
      · rw [h2]
        exact h2r
      · rw [hz n hn h1 h2]
        rfl

/-- C6 witness: a run that crosses the root split (keys 0..13 inserted
ascending) keeps the is-root flag exactly on page 0. -/
theorem C6_root_stability_witness :
    ((insertAll initTable (ascRows 14)).pages 0).isRoot = 1 ∧
    ((insertAll initTable (ascRows 14)).pages 7).isRoot = 0 :=
  ⟨(C6_root_stability (ascRows 14) (by decide)).1,
   (C6_root_stability (ascRows 14) (by decide)).2 7 (by decide)⟩

/-- C1 counterexample: the claim states that the page geometry yields a
maximum leaf cell count of 27 and that no split occurs before the 28th
insert.  In the source PAGE_SIZE is 4096, so the maximum leaf cell
count is 13, and the root has already split (page 0 is Internal, three
pages exist) after only 14 ascending inserts. -/
theorem C1_counterexample :
    LEAF_NODE_MAX_CELLS = 13 ∧ ¬ LEAF_NODE_MAX_CELLS = 27 ∧
    ((insertAll initTable (ascRows 14)).pages 0).ntype = NODE_INTERNAL ∧
    (insertAll initTable (ascRows 14)).numPages = 3 := by decide

/-- C1 amended: with value size 291, page size 4096, header size 14 and
leaf cell size 295, the maximum leaf cell count is 13; inserting the 14
distinct ascending keys 0..13 triggers exactly one split after the 14th
insert (after 13 inserts the root is still a leaf with 13 cells and one
page), leaving a left leaf (page 1) holding keys 0..5 (6 cells) and a
right leaf (page 2) holding keys 6..13 (8 cells), and the root page
becomes an Internal node with exactly two cells (maxKey=5, child=1) and
(maxKey=sentinel 2^32-1, child=2). -/
theorem C1_amended_split_after_14 :
    LEAF_NODE_MAX_CELLS = 13 ∧
    ((insertAll initTable (ascRows 13)).pages 0).ntype = NODE_LEAF ∧
    (insertAll initTable (ascRows 13)).numPages = 1 ∧
    numCells ((insertAll initTable (ascRows 13)).pages 0) = 13 ∧
    ((insertAll initTable (ascRows 14)).pages 0).ntype = NODE_INTERNAL ∧
    (insertAll initTable (ascRows 14)).numPages = 3 ∧
    keysOf ((insertAll initTable (ascRows 14)).pages 1) = [0, 1, 2, 3, 4, 5] ∧
    keysOf ((insertAll initTable (ascRows 14)).pages 2) = [6, 7, 8, 9, 10, 11, 12, 13] ∧
    ((insertAll initTable (ascRows 14)).pages 0).icells = [(5, 1), (4294967295, 2)] := by decide

/-! ## Claim C2 -/

/-- C2 counterexample: after inserting the ascending keys 0..18 the
right leaf (page 2) is at maximum capacity and is not the root; the
claim states that the 20th insert (key 19) splits that leaf and inserts
a routing cell into its parent, but the insert leaves the database
state completely unchanged (no page is modified and no page is
allocated). -/
theorem C2_counterexample :
    numCells ((insertAll initTable (ascRows 19)).pages 2) = LEAF_NODE_MAX_CELLS ∧
    ((insertAll initTable (ascRows 19)).pages 2).isRoot = 0 ∧
    find_leaf_page (insertAll initTable (ascRows 19)) 19 = 2 ∧
    (insertAll initTable (ascRows 19)).numPages = 3 ∧
    execute_insert (insertAll initTable (ascRows 19)) 19 [] = insertAll initTable (ascRows 19) :=
  ⟨by decide, by decide, by decide, by decide, rfl⟩

/-- C2 amended: for every insert whose located leaf is already at
maximum cell capacity and is not the root, the insert operation does
not split the leaf and does not touch any parent node; it only prints
an error message (splitting a non-root leaf is unimplemented in the
source) and returns with the database state unchanged. -/
theorem C2_amended_full_nonroot_insert_noop (db : DB) (key : Nat) (val : List Nat)
    (hfull : LEAF_NODE_MAX_CELLS ≤ numCells (db.pages (find_leaf_page db key)))
    (hnotroot : (db.pages (find_leaf_page db key)).isRoot = 0) :
    execute_insert db key val = db :=
  leaf_node_insert_full_notRoot db (find_leaf_page db key) key val hfull hnotroot

/-- C2 amended witness: the situation of the amended claim arises
concretely after inserting keys 0..18. -/
theorem C2_amended_witness :
    LEAF_NODE_MAX_CELLS ≤ numCells ((insertAll initTable (ascRows 19)).pages
      (find_leaf_page (insertAll initTable (ascRows 19)) 19)) ∧
    execute_insert (insertAll initTable (ascRows 19)) 19 [] = insertAll initTable (ascRows 19) :=
  ⟨by decide, C2_amended_full_nonroot_insert_noop (insertAll initTable (ascRows 19)) 19 []
    (by decide) (by decide)⟩

/-! ## Claim C3 (counterexample; the amended theorem follows after the
invariant development below) -/

/-- C3 counterexample: the claim states the leaf cell keys are strictly
ascending after any sequence of inserts in any key order; inserting key
5 and then key 3 leaves the root leaf with keys in storage order
[5, 3], which is not strictly ascending (the source appends at the end
of the cell region and never re-sorts). -/
theorem C3_counterexample :
    keysOf ((insertAll initTable [(5, []), (3, [])]).pages 0) = [5, 3] ∧
    ¬ List.Chain' (· < ·) (keysOf ((insertAll initTable [(5, []), (3, [])]).pages 0)) := by
  refine ⟨by decide, ?_⟩
  intro h
  rw [show keysOf ((insertAll initTable [(5, []), (3, [])]).pages 0) = [5, 3] from by decide] at h
  rw [List.chain'_cons] at h
  exact absurd h.1 (by omega)

/-! ## Claim C4 -/

/-- C4 counterexample: the claim states that when no internal cell
matches, the descent continues into the last cell's child.  After the
root split, searching for key 2^32 (which exceeds every cell key,
including the sentinel, so no cell matches) returns page 0 -- the
internal root itself -- rather than descending into the last cell's
child (page 2, the right leaf): the source prints an error and returns
0. -/
theorem C4_counterexample :
    ((insertAll initTable (ascRows 14)).pages 0).ntype = NODE_INTERNAL ∧
    ((insertAll initTable (ascRows 14)).pages 0).icells = [(5, 1), (4294967295, 2)] ∧
    ((insertAll initTable (ascRows 14)).pages 2).ntype = NODE_LEAF ∧
    find_leaf_page (insertAll initTable (ascRows 14)) 4294967296 = 0 ∧
    ¬ find_leaf_page (insertAll initTable (ascRows 14)) 4294967296 = 2 := by decide

/-- C4 amended: on a two-level tree (internal root whose two cells
point at leaves, the last cell carrying the sentinel), the descent
selects the first cell in stored order whose maxKey is at least the key
(ties resolved by first match) and descends into that cell's child,
returning that leaf's page number; if no cell matches, the function
reports an error and returns page number 0 instead of descending into
the last cell's child. -/
theorem C4_amended_routing (db : DB) (s c1 c2 key : Nat)
    (hroot : (db.pages 0).ntype = NODE_INTERNAL)
    (hic : (db.pages 0).icells = [(s, c1), (MAX_INT_KEY, c2)])
    (hc1 : (db.pages c1).ntype = NODE_LEAF)
    (hc2 : (db.pages c2).ntype = NODE_LEAF) :
    find_leaf_page db key = if key ≤ s then c1 else if key ≤ MAX_INT_KEY then c2 else 0 :=
  flp_route_two db s c1 c2 key hroot hic hc1 hc2

/-- C4 amended witness: concrete routing on the tree obtained after the
root split, for key 7 (first matching cell is the sentinel cell). -/
theorem C4_amended_witness :
    find_leaf_page (insertAll initTable (ascRows 14)) 7 =
      (if 7 ≤ 5 then 1 else if 7 ≤ MAX_INT_KEY then 2 else 0) :=
  C4_amended_routing (insertAll initTable (ascRows 14)) 5 1 2 7
    (by decide) (by decide) (by decide) (by decide)

/-! ## Claim C9 -/

/-- C9: when an insert targets a leaf that is already at maximum cell
capacity and is not the root, leaf_node_insert returns without any
error result (the Python function returns None and has no error
channel; it only prints a message) and leaves every page of the
database unchanged: the row is silently discarded. -/
theorem C9_full_nonroot_leaf_silent_noop (db : DB) (page key : Nat) (val : List Nat)
    (hfull : LEAF_NODE_MAX_CELLS ≤ numCells (db.pages page))
    (hnotroot : (db.pages page).isRoot = 0) :
    leaf_node_insert db page key val = db :=
  leaf_node_insert_full_notRoot db page key val hfull hnotroot

/-- C9 witness: the full non-root right leaf produced by inserting keys
0..18 silently drops a further row with key 99. -/
theorem C9_witness :
    LEAF_NODE_MAX_CELLS ≤ numCells ((insertAll initTable (ascRows 19)).pages 2) ∧
    leaf_node_insert (insertAll initTable (ascRows 19)) 2 99 [] = insertAll initTable (ascRows 19) :=
  ⟨by decide, C9_full_nonroot_leaf_silent_noop (insertAll initTable (ascRows 19)) 2 99 []
    (by decide) (by decide)⟩

/-! ## Sorted-leaf invariant development -/

theorem keysOf_append_cell (p : Page) (k : Nat) (v : List Nat) :
    keysOf { p with lcells := p.lcells ++ [(k, v)] } = keysOf p ++ [k] := by
  simp [keysOf]

theorem splitLeftCells_eq_take (root : Page)
    (h : LEAF_NODE_MAX_CELLS / 2 ≤ root.lcells.length) :
    splitLeftCells root = root.lcells.take (LEAF_NODE_MAX_CELLS / 2) := by
  unfold splitLeftCells cellAt
  exact rangeMap_getD_eq_take root.lcells (0, []) _ h

theorem splitRightCells_eq_drop (root : Page)
    (h : root.lcells.length = LEAF_NODE_MAX_CELLS) :
    splitRightCells root = root.lcells.drop (LEAF_NODE_MAX_CELLS / 2) := by
  unfold splitRightCells cellAt
  exact rangeMap_getD_shift_eq_drop root.lcells (0, []) _ _ (by rw [h]; decide)

theorem get_node_max_key_mem (p : Page) (hty : p.ntype = NODE_LEAF)
    (hne : p.lcells.length ≠ 0) :
    get_node_max_key p ∈ keysOf p := by
  unfold get_node_max_key
  rw [numCells_leaf p hty, if_neg hne]
  unfold cellAt keysOf
  have hlt : p.lcells.length - 1 < p.lcells.length := by omega
  rw [List.getD_eq_getElem p.lcells (0, []) hlt]
  exact List.mem_map_of_mem Prod.fst (List.getElem_mem hlt)

theorem sortedInv_init : SortedInv initTable 0 := by
  left
  refine ⟨shapeA_init, ?_, ?_⟩
  · show List.Chain' (· < ·) ([] : List Nat)
    exact List.chain'_nil
  · intro x hx
    simp [initTable, keysOf, initialize_leaf_node, zeroPage] at hx

theorem sortedInv_step (db : DB) (ub k : Nat) (v : List Nat)
    (hub : ub ≤ k) (hk : k < 4294967296) (h : SortedInv db ub) :
    SortedInv (execute_insert db k v) (k + 1) := by
  rcases h with ⟨hA, hs0, hb0⟩ | ⟨s, hB, hsub, hst0, hst1, hst2, hb2⟩
  · rcases shapeA_step_cases db k v hA with ⟨hlt, heq⟩ | ⟨hfull, heq⟩
    · rw [heq]
      left
      refine ⟨shapeA_append_preserves db k v hA hlt, ?_, ?_⟩
      · rw [updatePage_pages, if_pos rfl, keysOf_append_cell]
        exact chain'_append_lt _ k hs0 (fun x hx => lt_of_lt_of_le (hb0 x hx) hub)
      · rw [updatePage_pages, if_pos rfl, keysOf_append_cell]
        intro x hx
        rcases List.mem_append.mp hx with hx | hx
        · have := hb0 x hx
          omega
        · have : x = k := by simpa using hx
          omega
    · rw [heq]
      right
      have htakele : LEAF_NODE_MAX_CELLS / 2 ≤ (db.pages 0).lcells.length := by
        rw [hfull]
        decide
      have hLC : splitLeftCells (db.pages 0) =
          (db.pages 0).lcells.take (LEAF_NODE_MAX_CELLS / 2) :=
        splitLeftCells_eq_take _ htakele
      have hRC : splitRightCells (db.pages 0) =
          (db.pages 0).lcells.drop (LEAF_NODE_MAX_CELLS / 2) :=
        splitRightCells_eq_drop _ hfull
      refine ⟨get_node_max_key (splitLeftNode db),
        shapeA_split_preserves db k v hA, ?_, ?_, ?_, ?_, ?_⟩
      · have hty : (splitLeftNode db).ntype = NODE_LEAF := rfl
        have hlenL : (splitLeftNode db).lcells.length ≠ 0 := by
          show (splitLeftCells (db.pages 0)).length ≠ 0
          rw [hLC, List.length_take, hfull]
          decide
        have hmem := get_node_max_key_mem (splitLeftNode db) hty hlenL
        have hkeys : keysOf (splitLeftNode db) =
            ((db.pages 0).lcells.take (LEAF_NODE_MAX_CELLS / 2)).map Prod.fst := by
          show (splitLeftCells (db.pages 0)).map Prod.fst = _
          rw [hLC]
        rw [hkeys, List.map_take] at hmem
        have hmem2 : get_node_max_key (splitLeftNode db) ∈ keysOf (db.pages 0) :=
          List.mem_of_mem_take hmem
        have := hb0 _ hmem2
        omega
      · rw [split_pages_zero]
        show List.Chain' (· < ·) (keysOf (db.pages 0))
        exact hs0
      · rw [split_pages_one db k v hA.1]
        show List.Chain' (· < ·) ((splitLeftCells (db.pages 0)).map Prod.fst)
        rw [hLC, List.map_take]
        exact hs0.take _
      · rw [split_pages_two db k v hA.1]
        show List.Chain' (· < ·) ((splitRightCells (db.pages 0) ++ [(k, v)]).map Prod.fst)
        simp only [List.map_append, List.map_cons, List.map_nil]
        rw [hRC, List.map_drop]
        refine chain'_append_lt _ k (hs0.drop _) ?_
        intro x hx
        have hx2 : x ∈ keysOf (db.pages 0) := List.mem_of_mem_drop hx
        have := hb0 x hx2
        omega
      · rw [split_pages_two db k v hA.1]
        show ∀ x ∈ (splitRightCells (db.pages 0) ++ [(k, v)]).map Prod.fst, x < k + 1
        simp only [List.map_append, List.map_cons, List.map_nil]
        intro x hx
        rcases List.mem_append.mp hx with hx | hx
        · rw [hRC, List.map_drop] at hx
          have := hb0 x (List.mem_of_mem_drop hx)
          omega
        · have : x = k := by simpa using hx
          omega
  · obtain ⟨hB', hcase⟩ := shapeB_step_cases db s k v hB hk
    rcases hcase with heq | ⟨t, ht, hflp, hlt, heq⟩
    · rw [heq]
      rw [heq] at hB'
      right
      exact ⟨s, hB', by omega, hst0, hst1, hst2, fun x hx => by have := hb2 x hx; omega⟩
    · have ht2 : t = 2 := by
        rcases ht with ht1 | ht2
        · exfalso
          rw [ht1, flp_shapeB db s k hB hk] at hflp
          by_cases hks : k ≤ s
          · omega
          · rw [if_neg hks] at hflp
            omega
        · exact ht2
      subst ht2
      rw [heq]
      rw [heq] at hB'
      right
      refine ⟨s, hB', by omega, ?_, ?_, ?_, ?_⟩
      · rw [updatePage_pages, if_neg (by omega : (0 : Nat) ≠ 2)]
        exact hst0
      · rw [updatePage_pages, if_neg (by omega : (1 : Nat) ≠ 2)]
        exact hst1
      · rw [updatePage_pages, if_pos rfl, keysOf_append_cell]
        exact chain'_append_lt _ k hst2 (fun x hx => by have := hb2 x hx; omega)
      · rw [updatePage_pages, if_pos rfl, keysOf_append_cell]
        intro x hx
        rcases List.mem_append.mp hx with hx | hx
        · have := hb2 x hx
          omega
        · have : x = k := by simpa using hx
          omega

theorem sortedInv_insertAll (rows : List (Nat × List Nat)) :
    ∀ db ub, SortedInv db ub → ascendingFrom ub rows = true →
      ∃ ub2, SortedInv (insertAll db rows) ub2 := by
  induction rows with
  | nil =>
    intro db ub h _
    exact ⟨ub, h⟩
  | cons r rest ih =>
    intro db ub h hasc
    unfold ascendingFrom at hasc
    simp only [Bool.and_eq_true, decide_eq_true_eq] at hasc
    obtain ⟨⟨h1, h2⟩, h3⟩ := hasc
    exact ih (execute_insert db r.1 r.2) (r.1 + 1) (sortedInv_step db ub r.1 r.2 h1 h2 h) h3

/-! ## Claim C3 (amended theorem) -/

/-- C3 amended: the source's leaf_node_insert appends the new pair at
the end of the leaf's cell region and never re-sorts, so the sorted
order is maintained exactly when keys arrive in strictly ascending
order: after any sequence of inserts whose keys are strictly ascending
32-bit values, every page's leaf cell keys are strictly ascending in
storage order (in particular every reachable leaf's are). -/
theorem C3_amended_sorted_for_ascending_inserts (rows : List (Nat × List Nat))
    (hasc : ascendingFrom 0 rows = true) (n : Nat) :
    List.Chain' (· < ·) (keysOf ((insertAll initTable rows).pages n)) := by
  obtain ⟨ub2, h⟩ := sortedInv_insertAll rows initTable 0 sortedInv_init hasc
  rcases h with ⟨hA, hs0, _⟩ | ⟨s, hB, _, hst0, hst1, hst2, _⟩
  · by_cases h0 : n = 0
    · rw [h0]
      exact hs0
    · rw [hA.2.2.2.2 n h0]
      show List.Chain' (· < ·) ([] : List Nat)
      exact List.chain'_nil
  · obtain ⟨_, _, _, _, _, _, _, _, _, _, hz⟩ := hB
    by_cases h0 : n = 0
    · rw [h0]
      exact hst0
    · by_cases h1 : n = 1
      · rw [h1]
        exact hst1
      · by_cases h2 : n = 2
        · rw [h2]
          exact hst2
        · rw [hz n h0 h1 h2]
          show List.Chain' (· < ·) ([] : List Nat)
          exact List.chain'_nil

/-- C3 amended witness: a concrete ascending run, checked on the root
page. -/
theorem C3_amended_witness :
    ascendingFrom 0 [(3, ([] : List Nat)), (5, [])] = true ∧
    List.Chain' (· < ·) (keysOf ((insertAll initTable [(3, []), (5, [])]).pages 0)) :=
  ⟨by decide, C3_amended_sorted_for_ascending_inserts [(3, []), (5, [])] (by decide) 0⟩

/-! ## Claim C5 -/

/-- C5: with a WAL holding a Start record for transaction 5 and no
matching Commit, recover replays the insert into both the primary tree
and the secondary index using the payload captured at Start and
appends a Commit record: afterwards the described row is present
exactly once in each tree and the WAL contains a Commit for
transaction 5.  The missing WAL and generic BTree classes are
modelled from the spec. -/
theorem C5_wal_recovery (hash : List Nat → Nat) (rowId : Nat) (u e : List Nat) :
    (recover hash [WalRecord.start 5 rowId u e] [] []).2.1.count
      (rowId, serialize_row rowId u e) = 1 ∧
    (recover hash [WalRecord.start 5 rowId u e] [] []).2.2.count (hash e, packU32 rowId) = 1 ∧
    WalRecord.commit 5 ∈ (recover hash [WalRecord.start 5 rowId u e] [] []).1 := by
  have hu : uncommittedTxns [WalRecord.start 5 rowId u e] = [(5, rowId, u, e)] := by
    unfold uncommittedTxns
    simp
    rfl
  refine ⟨?_, ?_, ?_⟩
  · simp only [recover, hu, List.map_cons, List.map_nil, List.nil_append]
    exact List.count_singleton_self _
  · simp only [recover, hu, List.map_cons, List.map_nil, List.nil_append]
    exact List.count_singleton_self _
  · simp only [recover, hu, List.map_cons, List.map_nil]
    exact List.mem_append_right _ (List.mem_cons_self _ _)

/-! ## Claim C7 -/

/-- C7 counterexample: page number 100 does not exceed the configured
maximum page count (TABLE_MAX_PAGES = 100), yet get_page fails with
the capacity error instead of returning a buffer: the source raises
for every page number greater than or equal to the maximum, not only
strictly greater. -/
theorem C7_counterexample :
    ¬ TABLE_MAX_PAGES < 100 ∧
    get_page emptyPager 100 = Except.error "Page number out of bounds." :=
  ⟨by decide, rfl⟩

/-- C7 amended: for every page number n strictly below
TABLE_MAX_PAGES, get_page returns the cached buffer for page n when
one exists, reads the page from the file when n lies within the file
extent, and otherwise materializes a fresh zero-filled page-size
buffer (caching it either way); for every n at or above
TABLE_MAX_PAGES it fails with the capacity error. -/
theorem C7_amended_get_page_contract (p : PagerS) (n : Nat) :
    (TABLE_MAX_PAGES ≤ n → get_page p n = Except.error "Page number out of bounds.") ∧
    (n < TABLE_MAX_PAGES → ∀ b, p.cache n = some b → get_page p n = Except.ok (b, p)) ∧
    (n < TABLE_MAX_PAGES → p.cache n = none → n < numPagesInFile p →
      get_page p n = Except.ok ((p.fileData.drop (n * PAGE_SIZE)).take PAGE_SIZE,
        cacheAdd p n ((p.fileData.drop (n * PAGE_SIZE)).take PAGE_SIZE))) ∧
    (n < TABLE_MAX_PAGES → p.cache n = none → numPagesInFile p ≤ n →
      get_page p n = Except.ok (List.replicate PAGE_SIZE 0,
        cacheAdd p n (List.replicate PAGE_SIZE 0))) := by
  refine ⟨?_, ?_, ?_, ?_⟩
  · intro h
    unfold get_page
    rw [if_pos h]
  · intro h b hb
    unfold get_page
    rw [if_neg (by omega)]
    have hs : (p.cache n).isSome := by
      rw [hb]
      rfl
    rw [dif_pos hs]
    simp [hb]
  · intro h hb hfile
    unfold get_page
    rw [if_neg (by omega)]
    have hs : ¬ (p.cache n).isSome := by
      rw [hb]
      simp
    rw [dif_neg hs, if_pos hfile]
  · intro h hb hfile
    unfold get_page
    rw [if_neg (by omega)]
    have hs : ¬ (p.cache n).isSome := by
      rw [hb]
      simp
    rw [dif_neg hs, if_neg (by omega)]

/-- C7 amended witness: page 0 of a fresh empty database file is a
zero-filled buffer. -/
theorem C7_amended_witness :
    get_page emptyPager 0 =
      Except.ok (List.replicate PAGE_SIZE 0, cacheAdd emptyPager 0 (List.replicate PAGE_SIZE 0)) :=
  (C7_amended_get_page_contract emptyPager 0).2.2.2 (by decide) rfl (by decide)

/-! ## Claim C8 -/

theorem getD_set_self (l : List Nat) (i v : Nat) (h : i < l.length) :
    (l.set i v).getD i 0 = v := by
  rw [List.getD_eq_getElem _ _ (by simpa using h)]
  exact List.getElem_set_self (by simpa using h)

theorem getD_set_ne (l : List Nat) (i j v : Nat) (h : i ≠ j) :
    (l.set i v).getD j 0 = l.getD j 0 := by
  by_cases hj : j < l.length
  · rw [List.getD_eq_getElem _ _ (by simpa using hj), List.getD_eq_getElem _ _ hj]
    exact List.getElem_set_ne h _
  · rw [List.getD_eq_default _ _ (by simp; omega), List.getD_eq_default _ _ (by omega)]

theorem readU8_writeU32_lo (buf : List Nat) (off v : Nat) (h : off + 3 < buf.length) :
    readU8 (writeU32 buf off v) off = v % 256 := by
  unfold writeU32 readU8
  rw [getD_set_ne _ _ _ _ (by omega), getD_set_ne _ _ _ _ (by omega),
    getD_set_ne _ _ _ _ (by omega), getD_set_self _ _ _ (by omega)]

theorem readU8_writeU32_b1 (buf : List Nat) (off v : Nat) (h : off + 3 < buf.length) :
    readU8 (writeU32 buf off v) (off + 1) = v / 256 % 256 := by
  unfold writeU32 readU8
  rw [getD_set_ne _ _ _ _ (by omega), getD_set_ne _ _ _ _ (by omega),
    getD_set_self _ _ _ (by simp only [List.length_set]; omega)]

theorem readU8_writeU32_b2 (buf : List Nat) (off v : Nat) (h : off + 3 < buf.length) :
    readU8 (writeU32 buf off v) (off + 2) = v / 65536 % 256 := by
  unfold writeU32 readU8
  rw [getD_set_ne _ _ _ _ (by omega),
    getD_set_self _ _ _ (by simp only [List.length_set]; omega)]

theorem readU8_writeU32_b3 (buf : List Nat) (off v : Nat) (h : off + 3 < buf.length) :
    readU8 (writeU32 buf off v) (off + 3) = v / 16777216 % 256 := by
  unfold writeU32 readU8
  rw [getD_set_self _ _ _ (by simp only [List.length_set]; omega)]

theorem readU32_writeU32 (buf : List Nat) (off v : Nat)
    (h : off + 3 < buf.length) (hv : v < 4294967296) :
    readU32 (writeU32 buf off v) off = v := by
  unfold readU32
  rw [readU8_writeU32_lo buf off v h, readU8_writeU32_b1 buf off v h,
    readU8_writeU32_b2 buf off v h, readU8_writeU32_b3 buf off v h]
  omega

theorem readU8_writeU32_untouched (buf : List Nat) (off v i : Nat)
    (h : i < off ∨ off + 4 ≤ i) :
    readU8 (writeU32 buf off v) i = readU8 buf i := by
  unfold writeU32 readU8
  rw [getD_set_ne _ _ _ _ (by omega), getD_set_ne _ _ _ _ (by omega),
    getD_set_ne _ _ _ _ (by omega), getD_set_ne _ _ _ _ (by omega)]

/-- C8 counterexample: the claim states every page is a fixed-size
8192-byte block; in the source PAGE_SIZE is 4096. -/
theorem C8_counterexample : PAGE_SIZE = 4096 ∧ ¬ PAGE_SIZE = 8192 := by decide

/-- C8 amended: every page is a fixed-size 4096-byte block (not 8192)
and the node header occupies 14 bytes laid out as byte 0 = node type
(0=internal, 1=leaf), byte 1 = is-root flag, bytes 2-5 = parent page
number, bytes 6-9 = cell count (uint32, little-endian), bytes 10-13 =
next-leaf page number (uint32); leaf cells of 4 + valueSize = 295
bytes and 8-byte internal cells follow the header.  The accessor
round-trips pin the field offsets: writing the cell count touches
exactly bytes 6-9 and reads back, and likewise for the other
fields. -/
theorem C8_amended_node_layout (buf : List Nat) (v : Nat)
    (hlen : COMMON_NODE_HEADER_SIZE ≤ buf.length) (hv : v < 4294967296) :
    PAGE_SIZE = 4096 ∧
    COMMON_NODE_HEADER_SIZE = 14 ∧
    NODE_INTERNAL = 0 ∧
    NODE_LEAF = 1 ∧
    NODE_NUM_CELLS_OFFSET = 6 ∧
    NODE_NEXT_LEAF_OFFSET = 10 ∧
    LEAF_NODE_CELL_SIZE = LEAF_NODE_KEY_SIZE + LEAF_NODE_VALUE_SIZE ∧
    LEAF_NODE_CELL_SIZE = 295 ∧
    INTERNAL_NODE_CELL_SIZE = 8 ∧
    get_node_type_b (set_node_type_b buf NODE_LEAF) = NODE_LEAF ∧
    readU8 (set_node_root_b buf true) NODE_TYPE_SIZE = 1 ∧
    get_node_num_cells_b (set_node_num_cells_b buf v) = v ∧
    get_node_next_leaf_b (set_node_next_leaf_b buf v) = v ∧
    (∀ i, i < NODE_NUM_CELLS_OFFSET ∨ NODE_NUM_CELLS_OFFSET + NODE_NUM_CELLS_SIZE ≤ i →
      readU8 (set_node_num_cells_b buf v) i = readU8 buf i) ∧
    (∀ i, i < NODE_NEXT_LEAF_OFFSET ∨ NODE_NEXT_LEAF_OFFSET + NODE_NEXT_LEAF_SIZE ≤ i →
      readU8 (set_node_next_leaf_b buf v) i = readU8 buf i) := by
  have hl : 13 < buf.length := by
    have : COMMON_NODE_HEADER_SIZE = 14 := by decide
    omega
  refine ⟨by decide, by decide, by decide, by decide, by decide, by decide, by decide,
    by decide, by decide, ?_, ?_, ?_, ?_, ?_, ?_⟩
  · unfold get_node_type_b set_node_type_b writeU8 readU8
    exact getD_set_self _ _ _ (by omega)
  · unfold set_node_root_b writeU8 readU8
    rw [if_pos rfl]
    refine getD_set_self _ _ _ ?_
    have h1 : NODE_TYPE_SIZE = 1 := by decide
    omega
  · unfold get_node_num_cells_b set_node_num_cells_b
    exact readU32_writeU32 buf NODE_NUM_CELLS_OFFSET v (by
      have : NODE_NUM_CELLS_OFFSET = 6 := by decide
      omega) hv
  · unfold get_node_next_leaf_b set_node_next_leaf_b
    exact readU32_writeU32 buf NODE_NEXT_LEAF_OFFSET v (by
      have : NODE_NEXT_LEAF_OFFSET = 10 := by decide
      omega) hv
  · intro i hi
    unfold set_node_num_cells_b
    refine readU8_writeU32_untouched buf NODE_NUM_CELLS_OFFSET v i ?_
    have h6 : NODE_NUM_CELLS_OFFSET = 6 := by decide
    have h4 : NODE_NUM_CELLS_SIZE = 4 := by decide
    omega
  · intro i hi
    unfold set_node_next_leaf_b
    refine readU8_writeU32_untouched buf NODE_NEXT_LEAF_OFFSET v i ?_
    have h10 : NODE_NEXT_LEAF_OFFSET = 10 := by decide
    have h4 : NODE_NEXT_LEAF_SIZE = 4 := by decide
    omega

/-- C8 amended witness: the layout facts instantiated on an all-zero
14-byte header with cell count 7. -/
theorem C8_amended_witness :
    get_node_num_cells_b (set_node_num_cells_b (List.replicate 14 0) 7) = 7 ∧
    PAGE_SIZE = 4096 :=
  ⟨(C8_amended_node_layout (List.replicate 14 0) 7 (by decide) (by decide)).2.2.2.2.2.2.2.2.2.2.2.2.1,
   (C8_amended_node_layout (List.replicate 14 0) 7 (by decide) (by decide)).1⟩

/-! ## Claim C10 -/

theorem unpackU32_packU32 (v : Nat) (hv : v < 4294967296) :
    unpackU32 (packU32 v) = v := by
  unfold unpackU32 packU32
  simp only [List.getD_cons_zero, List.getD_cons_succ]
  omega

theorem packField_eq_pad (len : Nat) (bs : List Nat) (h : bs.length ≤ len) :
    packField len bs = bs ++ List.replicate (len - bs.length) 0 := by
  unfold packField
  rw [List.take_append_eq_append_take, List.take_of_length_le h, List.take_replicate]
  congr 1
  congr 1
  omega

theorem packField_length (len : Nat) (bs : List Nat) (h : bs.length ≤ len) :
    (packField len bs).length = len := by
  rw [packField_eq_pad len bs h]
  simp only [List.length_append, List.length_replicate]
  omega

theorem rstripNul_pad (bs : List Nat) (m : Nat) (h : ∀ b ∈ bs, b ≠ 0) :
    rstripNul (bs ++ List.replicate m 0) = bs := by
  unfold rstripNul
  rw [List.reverse_append, List.reverse_replicate]
  have h1 : List.dropWhile (fun b => b == 0) (List.replicate m 0 ++ bs.reverse) =
      List.dropWhile (fun b => b == 0) bs.reverse := by
    induction m with
    | zero => rw [List.replicate_zero, List.nil_append]
    | succ mm ih =>
      rw [List.replicate_succ, List.cons_append, List.dropWhile_cons,
        if_pos (show ((0 : Nat) == 0) = true from rfl)]
      exact ih
  rw [h1]
  have h2 : List.dropWhile (fun b => b == 0) bs.reverse = bs.reverse := by
    cases hrev : bs.reverse with
    | nil => rfl
    | cons a t =>
      have ha : a ∈ bs := by
        have hm : a ∈ bs.reverse := by
          rw [hrev]
          exact List.mem_cons_self a t
        simpa using hm
      rw [List.dropWhile_cons]
      have hne : (a == 0) = false := by
        have := h a ha
        simpa using this
      rw [hne]
      simp
  rw [h2, List.reverse_reverse]

/-- C10: for every row id representable as a 32-bit unsigned integer
and every username and email whose UTF-8 byte encodings contain no NUL
bytes and fit in 32 and 255 bytes respectively, deserialize_row of
serialize_row returns exactly the original triple. -/
theorem C10_row_roundtrip (rowId : Nat) (u e : List Nat)
    (hid : rowId < 4294967296) (hu : u.length ≤ 32) (he : e.length ≤ 255)
    (hu0 : ∀ b ∈ u, b ≠ 0) (he0 : ∀ b ∈ e, b ≠ 0) :
    deserialize_row (serialize_row rowId u e) = (rowId, u, e) := by
  have hu2 : u.length ≤ USERNAME_SIZE := hu
  have he2 : e.length ≤ EMAIL_SIZE := he
  have hulen : (packField USERNAME_SIZE u).length = USERNAME_SIZE := packField_length _ _ hu2
  have helen : (packField EMAIL_SIZE e).length = EMAIL_SIZE := packField_length _ _ he2
  have hplen : (packU32 rowId).length = 4 := rfl
  unfold deserialize_row serialize_row
  refine Prod.ext ?_ (Prod.ext ?_ ?_)
  · show unpackU32 ((packU32 rowId ++ packField USERNAME_SIZE u ++ packField EMAIL_SIZE e).take
      ID_SIZE) = rowId
    rw [List.append_assoc, show ID_SIZE = (packU32 rowId).length from rfl,
      List.take_left]
    exact unpackU32_packU32 rowId hid
  · show rstripNul (((packU32 rowId ++ packField USERNAME_SIZE u ++ packField EMAIL_SIZE e).drop
      ID_SIZE).take USERNAME_SIZE) = u
    rw [List.append_assoc, show ID_SIZE = (packU32 rowId).length from rfl,
      List.drop_left, List.take_left' hulen, packField_eq_pad _ _ hu2]
    exact rstripNul_pad u _ hu0
  · show rstripNul (((packU32 rowId ++ packField USERNAME_SIZE u ++ packField EMAIL_SIZE e).drop
      (ID_SIZE + USERNAME_SIZE)).take EMAIL_SIZE) = e
    rw [List.drop_left' (by rw [List.length_append, hplen, hulen]; decide),
      List.take_of_length_le (le_of_eq helen), packField_eq_pad _ _ he2]
    exact rstripNul_pad e _ he0

/-- C10 witness: a concrete row round-trips. -/
theorem C10_row_roundtrip_witness :
    deserialize_row (serialize_row 7 [97] [120, 64, 121]) = (7, [97], [120, 64, 121]) :=
  C10_row_roundtrip 7 [97] [120, 64, 121] (by decide) (by decide) (by decide)
    (by decide) (by decide)
